import Mathlib

/-!
# NanoQuiz server — formal model of `server.js`

A shallow embedding of the session/scoring/timer/rate-limit core of the
NanoQuiz server (`server.js`).  Machine integers are modelled as `Nat`
(JS timestamps from `Date.now()` are non-negative integers; the float
expression `Math.floor(500 + 500 * (timeRemaining / timeLimit))` agrees
with exact integer division `500 + 500 * timeRemaining / timeLimit` on
the whole clamped domain `timeLimitSeconds ∈ [5,90]`,
`timeRemaining ∈ [0, timeLimitSeconds*1000]`, checked exhaustively).

State that lives on the JS heap is explicit:
* `GameState` mirrors the object built by `createGameState`;
* `Sys` additionally records whether the session is still in the global
  `games` map (`live`), the set of scheduled-and-unfired `setTimeout`
  handles (`pending`), and a fresh-handle counter (`nextT`).  A timer
  callback closes over the heap object, so firing a pending timer runs
  `endRound` on the state even after `games.delete` (`live = false`),
  exactly as in the source.
* Outbound `io.to(...).emit(...)` calls are collected in a `List Emit`.
-/

/-- A question as stored in a session after `createGameState`
(options are (id, label) pairs; display shape/color is client-side). -/
structure Question where
  id : String
  text : String
  options : List (String × String)
  correctOptionIds : List String
  timeLimitSeconds : Nat
deriving DecidableEq

/-- Per-player state: `{name, score, answeredAtMs, selectedOptionId, lastCorrect}`
(`server.js` line 47).  `none` models JS `null`. -/
structure Player where
  name : String
  score : Nat
  answeredAtMs : Option Nat
  selectedOptionId : Option String
  lastCorrect : Bool
deriving DecidableEq

/-- The round object `{startMs, endMs, timer, awaiting}` (`server.js` line 86).
The timer handle is a `Nat` id into `Sys.pending`; `awaiting` is the set of
socket ids still awaited, kept as a duplicate-free list. -/
structure Round where
  startMs : Nat
  endMs : Nat
  timer : Nat
  awaiting : List String
deriving DecidableEq

/-- The session object built by `createGameState` (`server.js` lines 42-51).
`players` is an insertion-ordered association list mirroring the JS `Map`. -/
structure GameState where
  hostSocketId : String
  title : String
  questions : List Question
  players : List (String × Player)
  started : Bool
  currentIndex : Int
  round : Option Round
deriving DecidableEq

/-- One outbound `io.to(...).emit(...)` call. -/
inductive Emit where
  | lobbyUpdate (names : List String)
  | gameStarted (title : String)
  | questionShow (qid : String) (index : Int)
  | reveal (correctOptionIds : List String) (index : Int)
      (leaderboard : List (String × Nat × Bool))
  | canAdvance
  | gameOver (leaderboard : List (String × Nat × Bool))
  | cancelled
  | locked (sid : String) (optionId : String)
deriving DecidableEq

/-- Whole-system state for one session: the heap object `s`, whether it is
still in the `games` map (`live`), the scheduled unfired timer handles
(`pending`) and a counter for allocating fresh handles (`nextT`). -/
structure Sys where
  s : GameState
  live : Bool
  pending : List Nat
  nextT : Nat
deriving DecidableEq

/-- `true` iff the emit is a `question:reveal` broadcast. -/
def Emit.isReveal : Emit → Bool
  | .reveal _ _ _ => true
  | _ => false

/-- The scoring formula of `endRound` (`server.js` lines 128-130):
`timeRemaining = max(0, endMs - answeredAtMs)` (`Nat` subtraction is the
`max 0`), `points = floor(500 + 500 * timeRemaining / timeLimit)` with
`timeLimit = timeLimitSeconds * 1000`. -/
def points (timeLimitSeconds endMs answeredAtMs : Nat) : Nat :=
  let timeLimit := timeLimitSeconds * 1000
  let timeRemaining := endMs - answeredAtMs
  500 + 500 * timeRemaining / timeLimit

/-- `answered && q.correctOptionIds.includes(p.selectedOptionId)`
(`server.js` lines 124-125). -/
def answerCorrect (q : Question) (p : Player) : Bool :=
  p.selectedOptionId.isSome &&
    (match p.selectedOptionId with
     | some oid => q.correctOptionIds.contains oid
     | none => false)

/-- JS truthiness of `p.answeredAtMs` (a number or `null`):
falsy iff `null` or `0`. -/
def answeredAtTruthy (p : Player) : Bool :=
  match p.answeredAtMs with
  | some t => t != 0
  | none => false

/-- The score increment applied by `endRound` to one player
(`server.js` lines 127-132): `points` if `correct && p.answeredAtMs`,
else nothing. -/
def scoreIncrement (q : Question) (endMs : Nat) (p : Player) : Nat :=
  if answerCorrect q p && answeredAtTruthy p then
    points q.timeLimitSeconds endMs (p.answeredAtMs.getD 0)
  else 0

/-- The per-player effect of the scoring loop in `endRound`
(`server.js` lines 123-133): sets `lastCorrect` and adds the increment. -/
def scorePlayer (q : Question) (endMs : Nat) (p : Player) : Player :=
  { p with lastCorrect := answerCorrect q p
           score := p.score + scoreIncrement q endMs p }

/-- `Map.prototype.set` on the insertion-ordered player map: update in
place if the key exists, else append. -/
def mapSet (ps : List (String × Player)) (sid : String) (p : Player) :
    List (String × Player) :=
  if ps.any (fun e => e.1 == sid) then
    ps.map (fun e => if e.1 == sid then (sid, p) else e)
  else ps ++ [(sid, p)]

/-- `getPublicLeaderboard` (`server.js` lines 55-60): (name, score,
lastCorrect) triples sorted by score descending (stable, as JS `sort`). -/
def insertByScoreDesc (x : String × Nat × Bool) :
    List (String × Nat × Bool) → List (String × Nat × Bool)
  | [] => [x]
  | y :: ys => if y.2.1 ≤ x.2.1 then x :: y :: ys else y :: insertByScoreDesc x ys

/-- Stable descending-by-score sort, modelling `.sort((a, b) => b.score - a.score)`. -/
def sortByScoreDesc (l : List (String × Nat × Bool)) : List (String × Nat × Bool) :=
  l.foldr insertByScoreDesc []

/-- `getPublicLeaderboard(state)` (`server.js` lines 55-60). -/
def getPublicLeaderboard (g : GameState) : List (String × Nat × Bool) :=
  sortByScoreDesc (g.players.map (fun e => (e.2.name, e.2.score, e.2.lastCorrect)))

/-- `state.questions[state.currentIndex]`: `undefined` (`none`) when the
index is out of range (including `-1`). -/
def currentQuestion (g : GameState) : Option Question :=
  if g.currentIndex < 0 then none else g.questions.get? g.currentIndex.toNat

/-- `endRound(state)` (`server.js` lines 116-149): no-op when no round is
active; otherwise clears the round timer, scores every player, broadcasts
`question:reveal`, clears the round and tells the host it can advance.
The callback runs on the heap object, so it is not guarded by `live`.
The inner `none` branch (no question at `currentIndex`) is unreachable
whenever an active round has an in-range index; the JS code would throw
there. -/
def endRound (sys : Sys) : Sys × List Emit :=
  match sys.s.round with
  | none => (sys, [])
  | some r =>
    match currentQuestion sys.s with
    | none => (sys, [])
    | some q =>
      let players' := sys.s.players.map (fun e => (e.1, scorePlayer q r.endMs e.2))
      let g' := { sys.s with players := players', round := none }
      (⟨g', sys.live, sys.pending.erase r.timer, sys.nextT⟩,
       [Emit.reveal q.correctOptionIds sys.s.currentIndex (getPublicLeaderboard g'),
        Emit.canAdvance])

/-- `maybeEndEarly(state)` (`server.js` lines 107-113): if a round is
active and its awaiting set is empty, cancel the timer and end the round. -/
def maybeEndEarly (sys : Sys) : Sys × List Emit :=
  match sys.s.round with
  | none => (sys, [])
  | some r =>
    if r.awaiting.isEmpty then
      endRound ⟨sys.s, sys.live, sys.pending.erase r.timer, sys.nextT⟩
    else (sys, [])

/-- `startQuestion(state)` (`server.js` lines 69-104): increments
`currentIndex`; if out of questions runs `endGame` (final leaderboard,
`games.delete`); else resets per-round player state, installs a fresh
round with a newly scheduled timer (without cancelling any previous
round's timer) and broadcasts the sanitized question.  The inner `none`
branch is unreachable when the pre-call index is ≥ -1. -/
def startQuestion (sys : Sys) (now : Nat) : Sys × List Emit :=
  let idx := sys.s.currentIndex + 1
  let g0 := { sys.s with currentIndex := idx }
  if (g0.questions.length : Int) ≤ idx then
    (⟨g0, false, sys.pending, sys.nextT⟩, [Emit.gameOver (getPublicLeaderboard g0)])
  else
    match g0.questions.get? idx.toNat with
    | none => (⟨g0, sys.live, sys.pending, sys.nextT⟩, [])
    | some q =>
      let endMs := now + q.timeLimitSeconds * 1000
      let playersReset := g0.players.map (fun e =>
        (e.1, { e.2 with answeredAtMs := none, selectedOptionId := none,
                         lastCorrect := false }))
      let tid := sys.nextT
      let r : Round := ⟨now, endMs, tid, playersReset.map (fun e => e.1)⟩
      (⟨{ g0 with players := playersReset, round := some r },
        sys.live, sys.pending ++ [tid], sys.nextT + 1⟩,
       [Emit.questionShow q.id idx])

/-- `MAX_PLAYERS_PER_GAME` (`server.js` line 14). -/
def MAX_PLAYERS_PER_GAME : Nat := 100

/-- JS `String.prototype.trim`: strip leading and trailing whitespace.
(Defined over the character list so that it evaluates by kernel
reduction, unlike `String.trim`.) -/
def jsTrim (s : String) : String :=
  String.mk
    (((s.toList.dropWhile Char.isWhitespace).reverse.dropWhile
        Char.isWhitespace).reverse)

/-- Characters admitted by the sanitizer's allow-list `[\w\s\-'.!]`
(`server.js` line 204). -/
def isAllowedNameChar (c : Char) : Bool :=
  c.isAlphanum || c = '_' || c.isWhitespace || c = '-' || c = '\'' || c = '.' || c = '!'

/-- One left-to-right pass of `replace(/<[^>]*>/g, '')`: on `<`, if a
closing `>` follows, drop through the first such `>`; otherwise the
regex cannot match there (nor anywhere later).  Fuelled recursion; the
fuel `length + 1` is never exhausted since each step consumes a char. -/
def stripTagsGo : Nat → List Char → List Char
  | 0, cs => cs
  | _ + 1, [] => []
  | fuel + 1, c :: cs =>
    if c = '<' && cs.contains '>' then
      stripTagsGo fuel ((cs.dropWhile (fun d => d != '>')).tail)
    else c :: stripTagsGo fuel cs

/-- `sanitizeName` (`server.js` lines 200-207): strip HTML tags, keep only
the allowed characters, truncate to 20 chars, trim. -/
def sanitizeName (name : String) : String :=
  let noTags := stripTagsGo (name.toList.length + 1) name.toList
  jsTrim (String.mk ((noTags.filter isAllowedNameChar).take 20))

/-- `host:startGame` handler (`server.js` lines 247-253): requires a live
session, the recorded host and a not-yet-started game; sets `started`,
broadcasts `game:started`, then runs `startQuestion`. -/
def startGameEv (sys : Sys) (caller : String) (now : Nat) : Sys × List Emit :=
  if !sys.live || caller != sys.s.hostSocketId || sys.s.started then (sys, [])
  else
    let sys1 : Sys := ⟨{ sys.s with started := true }, sys.live, sys.pending, sys.nextT⟩
    let out := startQuestion sys1 now
    (out.1, Emit.gameStarted sys.s.title :: out.2)

/-- `host:next` handler (`server.js` lines 256-260): requires only a live
session and the recorded host, then runs `startQuestion` unconditionally. -/
def hostNextEv (sys : Sys) (caller : String) (now : Nat) : Sys × List Emit :=
  if !sys.live || caller != sys.s.hostSocketId then (sys, [])
  else startQuestion sys now

/-- `player:join` handler (`server.js` lines 263-280): rejected when the
session is missing or started or full; otherwise stores a fresh player
under the sanitized name and rebroadcasts the lobby. -/
def playerJoinEv (sys : Sys) (sid name : String) : Sys × List Emit :=
  if !sys.live || sys.s.started then (sys, [])
  else if MAX_PLAYERS_PER_GAME ≤ sys.s.players.length then (sys, [])
  else
    let g' := { sys.s with
      players := mapSet sys.s.players sid ⟨sanitizeName name, 0, none, none, false⟩ }
    (⟨g', sys.live, sys.pending, sys.nextT⟩,
     [Emit.lobbyUpdate (g'.players.map (fun e => e.2.name))])

/-- `player:answer` handler (`server.js` lines 283-302): ignored when the
session is missing, no round is active, the sender is not a player, the
question id does not match the current question, or the player already
answered; otherwise records the raw option id and timestamp, removes the
sender from the awaiting set, acknowledges the lock and checks for early
completion. -/
def playerAnswerEv (sys : Sys) (sid qid oid : String) (now : Nat) : Sys × List Emit :=
  if !sys.live then (sys, [])
  else
    match sys.s.round with
    | none => (sys, [])
    | some r =>
      match sys.s.players.lookup sid with
      | none => (sys, [])
      | some p =>
        match currentQuestion sys.s with
        | none => (sys, [])
        | some q =>
          if q.id != qid then (sys, [])
          else if p.selectedOptionId.isSome then (sys, [])
          else
            let p' := { p with selectedOptionId := some oid, answeredAtMs := some now }
            let r' := { r with awaiting := r.awaiting.erase sid }
            let sys1 : Sys :=
              ⟨{ sys.s with players := mapSet sys.s.players sid p', round := some r' },
               sys.live, sys.pending, sys.nextT⟩
            let out := maybeEndEarly sys1
            (out.1, Emit.locked sid oid :: out.2)

/-- A scheduled round timer fires (`setTimeout(() => endRound(state), ...)`,
`server.js` line 88): only a still-pending handle fires, it is consumed,
and the callback runs `endRound` on the captured heap object — whether or
not the session is still in the `games` map. -/
def timerFireEv (sys : Sys) (tid : Nat) : Sys × List Emit :=
  if sys.pending.contains tid then
    endRound ⟨sys.s, sys.live, sys.pending.erase tid, sys.nextT⟩
  else (sys, [])

/-- `disconnect` handler (`server.js` lines 304-323) specialized to this
session: host leaving cancels the game and deletes the session (no timer
cleanup); a player leaving is removed from the map, the lobby is
rebroadcast, and only if no players remain while a round is active is the
timer cleared and the round ended. -/
def disconnectEv (sys : Sys) (sid : String) : Sys × List Emit :=
  if !sys.live then (sys, [])
  else if sid == sys.s.hostSocketId then
    (⟨sys.s, false, sys.pending, sys.nextT⟩, [Emit.cancelled])
  else if sys.s.players.any (fun e => e.1 == sid) then
    let players' := sys.s.players.filter (fun e => e.1 != sid)
    let g' := { sys.s with players := players' }
    let sys1 : Sys := ⟨g', sys.live, sys.pending, sys.nextT⟩
    let e1 := [Emit.lobbyUpdate (players'.map (fun e => e.2.name))]
    match g'.round with
    | some r =>
      if players'.isEmpty then
        let out := endRound ⟨g', sys.live, sys.pending.erase r.timer, sys.nextT⟩
        (out.1, e1 ++ out.2)
      else (sys1, e1)
    | none => (sys1, e1)
  else (sys, [])

/-- The inbound events that touch one session (rate-limiter admission is
modelled separately by `wrapRateLimit`). -/
inductive Event where
  | startGame (caller : String) (now : Nat)
  | hostNext (caller : String) (now : Nat)
  | playerJoin (sid name : String)
  | playerAnswer (sid qid oid : String) (now : Nat)
  | timerFire (tid : Nat)
  | disconnect (sid : String)

/-- One handler dispatch. -/
def step (sys : Sys) : Event → Sys × List Emit
  | .startGame caller now => startGameEv sys caller now
  | .hostNext caller now => hostNextEv sys caller now
  | .playerJoin sid name => playerJoinEv sys sid name
  | .playerAnswer sid qid oid now => playerAnswerEv sys sid qid oid now
  | .timerFire tid => timerFireEv sys tid
  | .disconnect sid => disconnectEv sys sid

/-- The session as freshly entered in `games` by `host:createGame` via
`createGameState` (`server.js` lines 42-51): no players, `started = false`,
`currentIndex = -1`, `round = null`.  `questions` stands for the shuffled,
time-limit-clamped list produced at creation. -/
def initSys (hostSocketId title : String) (questions : List Question) : Sys :=
  ⟨⟨hostSocketId, title, questions, [], false, -1, none⟩, true, [], 1⟩

/-- States of one session reachable from creation by any event sequence. -/
inductive Reachable (hostSocketId title : String) (questions : List Question) :
    Sys → Prop
  | init : Reachable hostSocketId title questions (initSys hostSocketId title questions)
  | next (sys : Sys) (e : Event) :
      Reachable hostSocketId title questions sys →
      Reachable hostSocketId title questions (step sys e).1

/-- Run a list of events, keeping only the state. -/
def run (sys : Sys) (es : List Event) : Sys :=
  es.foldl (fun s e => (step s e).1) sys

/-- `RATE_LIMIT_WINDOW_MS` (`server.js` line 20). -/
def RATE_LIMIT_WINDOW_MS : Nat := 10 * 1000

/-- `RATE_LIMIT_MAX` (`server.js` line 21). -/
def RATE_LIMIT_MAX : Nat := 30

/-- One call of `rateLimit` for one source ip (`server.js` lines 159-174),
acting on that ip's timestamp array: shift off timestamps older than the
window, push `now`, admit iff the array holds at most `RATE_LIMIT_MAX`
entries.  (`now - RATE_LIMIT_WINDOW_MS` may be negative in JS; with `Nat`
truncated subtraction the comparison `ts < now - window` agrees, since
timestamps are non-negative.) -/
def rateLimitStep (arr : List Nat) (now : Nat) : Bool × List Nat :=
  let arr1 := arr.dropWhile (fun ts => ts < now - RATE_LIMIT_WINDOW_MS)
  let arr2 := arr1 ++ [now]
  (decide (arr2.length ≤ RATE_LIMIT_MAX), arr2)

/-- Run `rateLimit` over a sequence of event arrival times for one source,
returning each event's admission verdict. -/
def rlRun (arr : List Nat) : List Nat → List Bool
  | [] => []
  | t :: ts =>
    let out := rateLimitStep arr t
    out.1 :: rlRun out.2 ts

/-- `wrapRateLimit` (`server.js` lines 212-221): the wrapped handler runs
iff `rateLimit` admits the event; a rejected event leaves the session
untouched and emits nothing. -/
def wrapRateLimit (arr : List Nat) (now : Nat) (handler : Sys → Sys × List Emit)
    (sys : Sys) : (Sys × List Emit) × List Nat :=
  let out := rateLimitStep arr now
  if out.1 then (handler sys, out.2) else ((sys, []), out.2)

/-- Untyped JS values, as far as the quiz validator can observe them. -/
inductive JSValue where
  | null
  | undefined
  | bool (b : Bool)
  | num (n : Int)
  | str (s : String)
  | arr (elems : List JSValue)
  | obj (fields : List (String × JSValue))

/-- JS property access `v[k]`: `undefined` on non-objects and missing keys
(none of the accessed keys is an array/string built-in). -/
def getField (v : JSValue) (k : String) : JSValue :=
  match v with
  | .obj fields =>
    match fields.lookup k with
    | some x => x
    | none => .undefined
  | _ => .undefined

/-- JS truthiness. -/
def isTruthy : JSValue → Bool
  | .null => false
  | .undefined => false
  | .bool b => b
  | .num n => n != 0
  | .str s => s != ""
  | .arr _ => true
  | .obj _ => true

/-- `typeof v === 'object'` (true for objects, arrays and `null`). -/
def typeofObject : JSValue → Bool
  | .null => true
  | .arr _ => true
  | .obj _ => true
  | _ => false

/-- `typeof v === 'string' && v.trim()` truthy: a string that is non-empty
after trimming. -/
def isNonBlankString : JSValue → Bool
  | .str s => jsTrim s != ""
  | _ => false

/-- The option checks in `validateQuizPayload` (`server.js` lines 186-190). -/
def validOption (opt : JSValue) : Bool :=
  isTruthy opt && typeofObject opt &&
  isNonBlankString (getField opt "id") &&
  isNonBlankString (getField opt "label")

/-- The per-question checks in `validateQuizPayload`
(`server.js` lines 181-195). -/
def validQuestion (q : JSValue) : Bool :=
  isTruthy q && typeofObject q &&
  isNonBlankString (getField q "id") &&
  isNonBlankString (getField q "text") &&
  (match getField q "options" with
   | .arr opts => decide (2 ≤ opts.length) && opts.all validOption
   | _ => false) &&
  (match getField q "correctOptionIds" with
   | .arr cids => decide (1 ≤ cids.length) && cids.all isNonBlankString
   | _ => false)

/-- `validateQuizPayload(payload)` (`server.js` lines 177-197). -/
def validateQuizPayload (payload : JSValue) : Bool :=
  isTruthy payload && typeofObject payload &&
  (match getField payload "questions" with
   | .arr qs =>
     decide (1 ≤ qs.length) &&
     isNonBlankString (getField payload "title") &&
     qs.all validQuestion
   | _ => false)

/-- Modelled from the spec's words for the validator contract (claim
C8): an option must be a record with non-empty trimmed `id` and `label`. -/
def specValidOption (opt : JSValue) : Bool :=
  match opt with
  | .obj _ =>
    isNonBlankString (getField opt "id") &&
    isNonBlankString (getField opt "label")
  | _ => false

/-- Modelled from the spec's words: a question must be a record with a
non-empty trimmed `id` and `text`, at least 2 valid options, and a
non-empty list of non-blank `correctOptionIds`. -/
def specValidQuestion (q : JSValue) : Bool :=
  match q with
  | .obj _ =>
    isNonBlankString (getField q "id") &&
    isNonBlankString (getField q "text") &&
    (match getField q "options" with
     | .arr opts => decide (2 ≤ opts.length) && opts.all specValidOption
     | _ => false) &&
    (match getField q "correctOptionIds" with
     | .arr cids => decide (1 ≤ cids.length) && cids.all isNonBlankString
     | _ => false)
  | _ => false

/-- Modelled from the spec's words: the payload must be a record with a
non-empty trimmed `title` and a non-empty `questions` list of valid
questions. -/
def specAccepts (p : JSValue) : Bool :=
  match p with
  | .obj _ =>
    isNonBlankString (getField p "title") &&
    (match getField p "questions" with
     | .arr qs => decide (1 ≤ qs.length) && qs.all specValidQuestion
     | _ => false)
  | _ => false

/-- A structurally valid payload whose `correctOptionIds` entry `"zzz"`
does not occur among the option ids `"a"`, `"b"`. -/
def danglingPayload : JSValue :=
  .obj [("title", .str "Quiz"),
        ("questions", .arr [
          .obj [("id", .str "q1"), ("text", .str "pick one"),
                ("options", .arr [
                  .obj [("id", .str "a"), ("label", .str "A")],
                  .obj [("id", .str "b"), ("label", .str "B")]]),
                ("correctOptionIds", .arr [.str "zzz"])]])]

/-- The state invariant that actually holds of every reachable session
state (see the theorems for claim C3): the index never drops below -1;
index -1 means the lobby state (not started, no round); an active round
forces a non-negative index; and while the session is live the index is
within the question list. -/
def SessionInv (sys : Sys) : Prop :=
  -1 ≤ sys.s.currentIndex ∧
  (sys.s.currentIndex = -1 → sys.s.started = false ∧ sys.s.round = none) ∧
  (sys.s.round.isSome = true → 0 ≤ sys.s.currentIndex) ∧
  (sys.live = true → sys.s.currentIndex < (sys.s.questions.length : Int))

/-- The ignore conditions of the `player:answer` handler: session gone
from the registry, no active round, sender not a registered player,
submitted question id not the current question's id, or sender already
answered this round. -/
def answerIgnored (sys : Sys) (sid qid : String) : Prop :=
  sys.live = false ∨ sys.s.round = none ∨ sys.s.players.lookup sid = none ∨
  (currentQuestion sys.s).map Question.id ≠ some qid ∨
  (sys.s.players.lookup sid).map (fun p => p.selectedOptionId.isSome) = some true

/-- A sample question: id `q1`, two options, `a` correct, 20 s limit. -/
def qEx : Question := ⟨"q1", "2+2?", [("a", "4"), ("b", "5")], ["a"], 20⟩

/-- A second sample question. -/
def qEx2 : Question := ⟨"q2", "3+3?", [("a", "6"), ("b", "7")], ["a"], 20⟩

/-- A two-question session whose first round is active (timer handle 1
pending, `nextT = 2`). -/
def sysTwoQ : Sys := run (initSys "H" "T" [qEx, qEx2]) [.startGame "H" 1000]

/-- `host:next` issued on a freshly created session that was never
started: the guard does not consult `started`. -/
def sysNextUnstarted : Sys := (step (initSys "H" "T" [qEx]) (.hostNext "H" 5000)).1

/-- Normal flow: start the game, then the round timer fires. -/
def sysAfterReveal : Sys :=
  run (initSys "H" "T" [qEx]) [.startGame "H" 1000, .timerFire 1]

/-- Two players join, the game starts, player A answers, B is still
awaited. -/
def sysMidRound : Sys :=
  run (initSys "H" "T" [qEx])
    [.playerJoin "A" "Alice", .playerJoin "B" "Bob",
     .startGame "H" 1000, .playerAnswer "A" "q1" "a" 2000]

/-- One player, game started (round active, timer 1 pending), then the
host disconnects: the session is deleted mid-round. -/
def sysHostGone : Sys :=
  run (initSys "H" "T" [qEx])
    [.playerJoin "A" "Alice", .startGame "H" 1000, .disconnect "H"]

/-! ## Theorems -/

theorem points_def (tL endMs t : Nat) :
    points tL endMs t = 500 + 500 * (endMs - t) / (tL * 1000) := rfl

theorem points_le_1000 (tL endMs t : Nat) (h1 : 1 ≤ tL)
    (h2 : endMs - t ≤ tL * 1000) : points tL endMs t ≤ 1000 := by
  rw [points_def]
  have h3 : 500 * (endMs - t) ≤ 500 * (tL * 1000) := Nat.mul_le_mul_left _ h2
  have h4 : 500 * (endMs - t) / (tL * 1000) ≤ 500 * (tL * 1000) / (tL * 1000) :=
    Nat.div_le_div_right h3
  have h5 : 500 * (tL * 1000) / (tL * 1000) = 500 :=
    Nat.mul_div_cancel _ (by positivity)
  omega

/-- C1: the scoring computation is a pure function of time limit, round
end, answer timestamp and correctness.  An incorrect answer is awarded 0;
a correct one (with its recorded positive answer timestamp) is awarded
`floor(500 + 500 * max(0, endMs - t) / (timeLimitSeconds * 1000))`, which
for an answer at or before the deadline lies in `[500, 1000]`, and is
exactly `500` at the deadline. -/
theorem scoring_increment_spec (q : Question) (startMs endMs t : Nat) (p : Player)
    (htl : 1 ≤ q.timeLimitSeconds)
    (hend : endMs = startMs + q.timeLimitSeconds * 1000)
    (hans : p.answeredAtMs = some t) (ht0 : 0 < t)
    (hstart : startMs ≤ t) (hdead : t ≤ endMs) :
    (answerCorrect q p = false → scoreIncrement q endMs p = 0) ∧
    (answerCorrect q p = true →
      scoreIncrement q endMs p =
        500 + 500 * (endMs - t) / (q.timeLimitSeconds * 1000) ∧
      500 ≤ scoreIncrement q endMs p ∧ scoreIncrement q endMs p ≤ 1000 ∧
      (t = endMs → scoreIncrement q endMs p = 500)) := by
  constructor
  · intro h
    simp [scoreIncrement, h]
  · intro hc
    have htruthy : answeredAtTruthy p = true := by
      unfold answeredAtTruthy
      rw [hans]
      simpa using Nat.pos_iff_ne_zero.mp ht0
    have hinc : scoreIncrement q endMs p = points q.timeLimitSeconds endMs t := by
      simp [scoreIncrement, hc, htruthy, hans]
    have hrem : endMs - t ≤ q.timeLimitSeconds * 1000 := by omega
    refine ⟨by rw [hinc, points_def], ?_, ?_, ?_⟩
    · rw [hinc, points_def]
      exact Nat.le_add_right _ _
    · rw [hinc]; exact points_le_1000 _ _ _ htl hrem
    · intro hteq
      rw [hinc, points_def, hteq]
      simp

/-- Witness for `scoring_increment_spec` at the spec's Scenario A:
20 s limit, answer with 15 s remaining, 875 points. -/
theorem scoring_increment_spec_w :
    (answerCorrect qEx ⟨"Alice", 0, some 5000, some "a", false⟩ = false →
      scoreIncrement qEx 20000 ⟨"Alice", 0, some 5000, some "a", false⟩ = 0) ∧
    (answerCorrect qEx ⟨"Alice", 0, some 5000, some "a", false⟩ = true →
      scoreIncrement qEx 20000 ⟨"Alice", 0, some 5000, some "a", false⟩ =
        500 + 500 * (20000 - 5000) / (qEx.timeLimitSeconds * 1000) ∧
      500 ≤ scoreIncrement qEx 20000 ⟨"Alice", 0, some 5000, some "a", false⟩ ∧
      scoreIncrement qEx 20000 ⟨"Alice", 0, some 5000, some "a", false⟩ ≤ 1000 ∧
      (5000 = 20000 →
        scoreIncrement qEx 20000 ⟨"Alice", 0, some 5000, some "a", false⟩ = 500)) :=
  scoring_increment_spec qEx 0 20000 5000 ⟨"Alice", 0, some 5000, some "a", false⟩
    (by decide) (by decide) rfl (by decide) (by decide) (by decide)

/-- C6 fails as stated: with a 20 s limit and deadline 20000, answers at
1 ms and 2 ms are both correct-answer latencies with the first strictly
earlier, yet both score 999 — the earlier answer does not earn strictly
more. -/
theorem points_not_strictly_decreasing :
    (1 : Nat) < 2 ∧ points 20 20000 1 = 999 ∧ points 20 20000 2 = 999 ∧
    ¬(points 20 20000 2 < points 20 20000 1) := by decide

/-- C6 amended: holding the time limit fixed, points for a correct answer
are monotonically non-increasing in answer latency (the source's floor
makes the decrease non-strict). -/
theorem points_antitone (tL endMs t1 t2 : Nat) (h : t1 ≤ t2) :
    points tL endMs t2 ≤ points tL endMs t1 := by
  rw [points_def, points_def]
  have h2 : endMs - t2 ≤ endMs - t1 := Nat.sub_le_sub_left h endMs
  have h3 : 500 * (endMs - t2) ≤ 500 * (endMs - t1) := Nat.mul_le_mul_left _ h2
  have h4 : 500 * (endMs - t2) / (tL * 1000) ≤ 500 * (endMs - t1) / (tL * 1000) :=
    Nat.div_le_div_right h3
  omega

/-- Witness for `points_antitone`: answering at 3 s beats answering at 7 s. -/
theorem points_antitone_w : points 20 20000 7000 ≤ points 20 20000 3000 :=
  points_antitone 20 20000 3000 7000 (by decide)

theorem dropWhile_eq_self_of_all_false {p : Nat → Bool} (l : List Nat)
    (h : ∀ a ∈ l, p a = false) : l.dropWhile p = l := by
  cases l with
  | nil => rfl
  | cons a t => simp [List.dropWhile, h a (List.mem_cons_self a t)]

theorem dropWhile_eq_nil_of_all_true {p : Nat → Bool} :
    ∀ l : List Nat, (∀ a ∈ l, p a = true) → l.dropWhile p = []
  | [], _ => rfl
  | a :: t, h => by
    have ha := h a (List.mem_cons_self a t)
    have ht := dropWhile_eq_nil_of_all_true t
      (fun x hx => h x (List.mem_cons_of_mem a hx))
    simp [List.dropWhile, ha, ht]

theorem rlRun_no_prune (ts : List Nat) :
    ∀ arr : List Nat,
    (∀ x ∈ arr, ∀ t ∈ ts, t ≤ x + RATE_LIMIT_WINDOW_MS) →
    (∀ t1 ∈ ts, ∀ t2 ∈ ts, t2 ≤ t1 + RATE_LIMIT_WINDOW_MS) →
    rlRun arr ts =
      (List.range ts.length).map
        (fun i => decide (arr.length + i + 1 ≤ RATE_LIMIT_MAX)) := by
  induction ts with
  | nil => intro arr _ _; rfl
  | cons t rest ih =>
    intro arr h1 h2
    have hkeep : arr.dropWhile (fun ts => ts < t - RATE_LIMIT_WINDOW_MS) = arr := by
      apply dropWhile_eq_self_of_all_false
      intro a ha
      have := h1 a ha t (List.mem_cons_self t rest)
      simp only [decide_eq_false_iff_not, Nat.not_lt]
      omega
    have hstep : rateLimitStep arr t =
        (decide (arr.length + 1 ≤ RATE_LIMIT_MAX), arr ++ [t]) := by
      simp [rateLimitStep, hkeep]
    have h1' : ∀ x ∈ arr ++ [t], ∀ u ∈ rest, u ≤ x + RATE_LIMIT_WINDOW_MS := by
      intro x hx u hu
      rcases List.mem_append.mp hx with hx | hx
      · exact h1 x hx u (List.mem_cons_of_mem t hu)
      · have hxt : x = t := by simpa using hx
        subst hxt
        exact h2 x (List.mem_cons_self x rest) u (List.mem_cons_of_mem x hu)
    have h2' : ∀ t1 ∈ rest, ∀ t2 ∈ rest, t2 ≤ t1 + RATE_LIMIT_WINDOW_MS :=
      fun t1 h t2 h' =>
        h2 t1 (List.mem_cons_of_mem t h) t2 (List.mem_cons_of_mem t h')
    have hrec := ih (arr ++ [t]) h1' h2'
    simp only [rlRun, hstep, hrec, List.length_cons, List.range_succ_eq_map,
      List.map_cons, List.map_map]
    congr 1
    apply List.map_congr_left
    intro i _
    simp only [Function.comp_apply, List.length_append, List.length_singleton]
    refine decide_eq_decide.mpr ?_
    generalize RATE_LIMIT_MAX = M
    omega

/-- C7: per source, of any event sequence lying inside one rolling
10-second window exactly the first 30 events are admitted (the 31st is
rejected); once the stored timestamps have all aged out of the window the
next event is admitted against a fresh singleton record; and a rejected
event never reaches its wrapped handler (no state change, no emits). -/
theorem rate_limiter_sliding_window (ts arr arr2 : List Nat) (now now2 : Nat)
    (sys : Sys) (handler : Sys → Sys × List Emit)
    (hwin : ∀ t1 ∈ ts, ∀ t2 ∈ ts, t2 ≤ t1 + RATE_LIMIT_WINDOW_MS)
    (hold : ∀ x ∈ arr, x < now - RATE_LIMIT_WINDOW_MS)
    (hrej : (rateLimitStep arr2 now2).1 = false) :
    rlRun [] ts =
      (List.range ts.length).map (fun i => decide (i + 1 ≤ RATE_LIMIT_MAX)) ∧
    (30 < ts.length → (rlRun [] ts).get? 30 = some false) ∧
    rateLimitStep arr now = (true, [now]) ∧
    wrapRateLimit arr2 now2 handler sys = ((sys, []), (rateLimitStep arr2 now2).2) := by
  have h0 := rlRun_no_prune ts []
    (fun x hx => absurd hx (List.not_mem_nil x)) hwin
  have h1 : rlRun [] ts =
      (List.range ts.length).map (fun i => decide (i + 1 ≤ RATE_LIMIT_MAX)) := by
    rw [h0]
    apply List.map_congr_left
    intro i _
    simp only [List.length_nil]
    refine decide_eq_decide.mpr ?_
    generalize RATE_LIMIT_MAX = M
    omega
  refine ⟨h1, ?_, ?_, ?_⟩
  · intro hlen
    rw [h1, List.get?_map, List.get?_range hlen]
    decide
  · have hdrop : arr.dropWhile (fun x => decide (x < now - RATE_LIMIT_WINDOW_MS)) = [] := by
      apply dropWhile_eq_nil_of_all_true
      intro a ha
      simpa using hold a ha
    simp [rateLimitStep, hdrop, RATE_LIMIT_MAX]
  · simp [wrapRateLimit, hrej]

/-- Witness for `rate_limiter_sliding_window`: 31 events at the same
instant — 30 admitted, the 31st rejected; a fully aged record resets; a
30-full window rejects and skips the handler. -/
theorem rate_limiter_sliding_window_w :
    rlRun [] (List.replicate 31 5) =
      (List.range (List.replicate 31 5).length).map
        (fun i => decide (i + 1 ≤ RATE_LIMIT_MAX)) ∧
    (30 < (List.replicate 31 5).length →
      (rlRun [] (List.replicate 31 5)).get? 30 = some false) ∧
    rateLimitStep [1, 2] 20000 = (true, [20000]) ∧
    wrapRateLimit (List.replicate 30 19999) 20000 (fun s => (s, [Emit.cancelled]))
        (initSys "h" "t" []) =
      ((initSys "h" "t" [], []),
       (rateLimitStep (List.replicate 30 19999) 20000).2) :=
  rate_limiter_sliding_window (List.replicate 31 5) [1, 2]
    (List.replicate 30 19999) 20000 20000 (initSys "h" "t" [])
    (fun s => (s, [Emit.cancelled])) (by decide) (by decide) (by decide)

theorem validOption_eq_spec (opt : JSValue) :
    validOption opt = specValidOption opt := by
  cases opt <;>
    simp [validOption, specValidOption, isTruthy, typeofObject, getField,
      isNonBlankString]

theorem validQuestion_eq_spec (q : JSValue) :
    validQuestion q = specValidQuestion q := by
  have hfo : validOption = specValidOption := funext validOption_eq_spec
  cases q <;>
    simp [validQuestion, specValidQuestion, isTruthy, typeofObject, getField,
      isNonBlankString, hfo]

/-- C8: the validator accepts exactly the payloads that are records with a
non-empty trimmed title, a non-empty question list, and per question a
non-empty trimmed id and text, at least two options with non-empty
trimmed id/label, and a non-empty list of non-blank `correctOptionIds`
(pure structure, so the referential check is absent: `danglingPayload`,
whose only correct id `"zzz"` names no option, is accepted; the embedding
is a pure function, so nothing is mutated). -/
theorem validator_accepts_iff_structural :
    (∀ p, validateQuizPayload p = specAccepts p) ∧
    validateQuizPayload danglingPayload = true := by
  constructor
  · intro p
    have hfq : validQuestion = specValidQuestion := funext validQuestion_eq_spec
    cases p with
    | null => simp [validateQuizPayload, specAccepts, isTruthy]
    | undefined => simp [validateQuizPayload, specAccepts, isTruthy]
    | bool b => simp [validateQuizPayload, specAccepts, isTruthy, typeofObject]
    | num n => simp [validateQuizPayload, specAccepts, isTruthy, typeofObject]
    | str s => simp [validateQuizPayload, specAccepts, isTruthy, typeofObject]
    | arr es => simp [validateQuizPayload, specAccepts, isTruthy, typeofObject,
        getField]
    | obj fields =>
      cases hq : getField (JSValue.obj fields) "questions" <;>
        simp [validateQuizPayload, specAccepts, isTruthy, typeofObject, hq, hfq] <;>
        cases isNonBlankString (getField (JSValue.obj fields) "title") <;>
        simp
  · rfl

/-- C2: ending a round with an active Round object broadcasts exactly one
reveal, applies exactly one score update per player, clears the Round,
and a second `endRound` invocation — from the timer, an early-completion
path or a disconnect path alike — finds no Round, changes no state and
emits nothing. -/
theorem end_round_idempotent (sys : Sys) (r : Round) (q : Question)
    (hr : sys.s.round = some r) (hq : currentQuestion sys.s = some q) :
    (endRound sys).2.countP (fun e => e.isReveal) = 1 ∧
    (endRound sys).1.s.round = none ∧
    (endRound sys).1.s.players =
      sys.s.players.map (fun e => (e.1, scorePlayer q r.endMs e.2)) ∧
    endRound (endRound sys).1 = ((endRound sys).1, []) := by
  refine ⟨?_, ?_, ?_, ?_⟩ <;>
    simp [endRound, hr, hq, Emit.isReveal]

/-- Witness for `end_round_idempotent` on the concrete mid-round state. -/
theorem end_round_idempotent_w :
    (endRound sysMidRound).2.countP (fun e => e.isReveal) = 1 ∧
    (endRound sysMidRound).1.s.round = none ∧
    (endRound sysMidRound).1.s.players =
      sysMidRound.s.players.map
        (fun e => (e.1, scorePlayer qEx (Round.mk 1000 21000 1 ["B"]).endMs e.2)) ∧
    endRound (endRound sysMidRound).1 = ((endRound sysMidRound).1, []) :=
  end_round_idempotent sysMidRound ⟨1000, 21000, 1, ["B"]⟩ qEx rfl rfl

/-- C9: `host:next` is guarded only by session existence and host
identity, never by session state.  A non-host caller is a no-op; the
host's call always advances: it installs a fresh Round with a newly
allocated timer and never touches `started`.  In particular, if a Round
was active, it is replaced while the old round's timer stays scheduled in
`pending`; and if the game was never started (lobby state, no Round), a
Round is created while `started` remains false. -/
theorem host_next_unguarded (sys : Sys) (now : Nat) (r : Round) (c : String)
    (hlive : sys.live = true) (hge : -1 ≤ sys.s.currentIndex)
    (hidx : sys.s.currentIndex + 1 < (sys.s.questions.length : Int))
    (hc : c ≠ sys.s.hostSocketId) :
    hostNextEv sys c now = (sys, []) ∧
    (hostNextEv sys sys.s.hostSocketId now).1.s.round.map Round.timer =
      some sys.nextT ∧
    (hostNextEv sys sys.s.hostSocketId now).1.s.started = sys.s.started ∧
    (sys.s.round = some r → r.timer ≠ sys.nextT →
      (hostNextEv sys sys.s.hostSocketId now).1.s.round.map Round.timer ≠
        some r.timer ∧
      (r.timer ∈ sys.pending →
        r.timer ∈ (hostNextEv sys sys.s.hostSocketId now).1.pending)) ∧
    (sys.s.round = none → sys.s.started = false →
      (hostNextEv sys sys.s.hostSocketId now).1.s.round.isSome = true ∧
      (hostNextEv sys sys.s.hostSocketId now).1.s.started = false) := by
  have hlt : (sys.s.currentIndex + 1).toNat < sys.s.questions.length := by omega
  obtain ⟨qq, hq2⟩ : ∃ qq,
      sys.s.questions[(sys.s.currentIndex + 1).toNat]? = some qq := by
    rw [List.getElem?_eq_getElem hlt]
    exact ⟨_, rfl⟩
  have hnotle : ¬((sys.s.questions.length : Int) ≤ sys.s.currentIndex + 1) := by
    omega
  refine ⟨?_, ?_, ?_, ?_, ?_⟩
  · simp [hostNextEv, hc]
  · simp [hostNextEv, hlive, startQuestion, hnotle, hq2]
  · simp [hostNextEv, hlive, startQuestion, hnotle, hq2]
  · intro _ hfresh
    constructor
    · simp [hostNextEv, hlive, startQuestion, hnotle, hq2]
      exact Ne.symm hfresh
    · intro hmem
      simp [hostNextEv, hlive, startQuestion, hnotle, hq2]
      exact Or.inl hmem
  · intro _ hstarted
    constructor
    · simp [hostNextEv, hlive, startQuestion, hnotle, hq2]
    · simp [hostNextEv, hlive, startQuestion, hnotle, hq2, hstarted]

/-- Witness for `host_next_unguarded`, applied twice: at the two-question
mid-round state (the active Round is replaced, its timer left pending)
and at a freshly created never-started session (a Round is created while
`started` remains false). -/
theorem host_next_unguarded_w :
    (hostNextEv sysTwoQ "X" 30000 = (sysTwoQ, []) ∧
     (hostNextEv sysTwoQ sysTwoQ.s.hostSocketId 30000).1.s.round.map
         Round.timer = some sysTwoQ.nextT ∧
     (hostNextEv sysTwoQ sysTwoQ.s.hostSocketId 30000).1.s.started =
       sysTwoQ.s.started ∧
     (sysTwoQ.s.round = some (Round.mk 1000 21000 1 []) →
       (Round.mk 1000 21000 1 []).timer ≠ sysTwoQ.nextT →
       (hostNextEv sysTwoQ sysTwoQ.s.hostSocketId 30000).1.s.round.map
           Round.timer ≠ some (Round.mk 1000 21000 1 []).timer ∧
       ((Round.mk 1000 21000 1 []).timer ∈ sysTwoQ.pending →
         (Round.mk 1000 21000 1 []).timer ∈
           (hostNextEv sysTwoQ sysTwoQ.s.hostSocketId 30000).1.pending)) ∧
     (sysTwoQ.s.round = none → sysTwoQ.s.started = false →
       (hostNextEv sysTwoQ sysTwoQ.s.hostSocketId 30000).1.s.round.isSome =
         true ∧
       (hostNextEv sysTwoQ sysTwoQ.s.hostSocketId 30000).1.s.started =
         false)) ∧
    (hostNextEv (initSys "H" "T" [qEx]) "X" 5000 = (initSys "H" "T" [qEx], []) ∧
     (hostNextEv (initSys "H" "T" [qEx])
         (initSys "H" "T" [qEx]).s.hostSocketId 5000).1.s.round.map
         Round.timer = some (initSys "H" "T" [qEx]).nextT ∧
     (hostNextEv (initSys "H" "T" [qEx])
         (initSys "H" "T" [qEx]).s.hostSocketId 5000).1.s.started =
       (initSys "H" "T" [qEx]).s.started ∧
     ((initSys "H" "T" [qEx]).s.round = some (Round.mk 0 0 99 []) →
       (Round.mk 0 0 99 []).timer ≠ (initSys "H" "T" [qEx]).nextT →
       (hostNextEv (initSys "H" "T" [qEx])
           (initSys "H" "T" [qEx]).s.hostSocketId 5000).1.s.round.map
           Round.timer ≠ some (Round.mk 0 0 99 []).timer ∧
       ((Round.mk 0 0 99 []).timer ∈ (initSys "H" "T" [qEx]).pending →
         (Round.mk 0 0 99 []).timer ∈
           (hostNextEv (initSys "H" "T" [qEx])
               (initSys "H" "T" [qEx]).s.hostSocketId 5000).1.pending)) ∧
     ((initSys "H" "T" [qEx]).s.round = none →
       (initSys "H" "T" [qEx]).s.started = false →
       (hostNextEv (initSys "H" "T" [qEx])
           (initSys "H" "T" [qEx]).s.hostSocketId 5000).1.s.round.isSome =
         true ∧
       (hostNextEv (initSys "H" "T" [qEx])
           (initSys "H" "T" [qEx]).s.hostSocketId 5000).1.s.started =
         false)) :=
  ⟨host_next_unguarded sysTwoQ 30000 ⟨1000, 21000, 1, []⟩ "X" rfl (by decide)
     (by decide) (by decide),
   host_next_unguarded (initSys "H" "T" [qEx]) 5000 ⟨0, 0, 99, []⟩ "X" rfl
     (by decide) (by decide) (by decide)⟩

theorem currentQuestion_update (g : GameState) (ps : List (String × Player))
    (rd : Option Round) :
    currentQuestion { g with players := ps, round := rd } = currentQuestion g := rfl

/-- C4 fails as stated: in `sysMidRound` player B is the last awaited
player; when B disconnects, the handler leaves B in the round's awaiting
set, does not run `endRound` early (no reveal is broadcast, the round
object survives), even though B was removed from the player map. -/
theorem disconnect_last_awaited_no_early_end :
    (step sysMidRound (.disconnect "B")).1.s.round.map Round.awaiting =
      some ["B"] ∧
    (step sysMidRound (.disconnect "B")).1.s.round.isSome = true ∧
    (step sysMidRound (.disconnect "B")).2.countP (fun e => e.isReveal) = 0 ∧
    (step sysMidRound (.disconnect "B")).1.s.players.lookup "B" = none := by
  exact ⟨rfl, rfl, rfl, rfl⟩

/-- C4 amended: a player disconnect during an active round removes the
player from the Player map only — the awaiting set is not updated and an
emptied-by-disconnect awaiting set does not end the round early; only
when zero players remain is the timer cleared and `endRound` forced. -/
theorem disconnect_player_behavior (sys : Sys) (sid : String) (r : Round)
    (q : Question)
    (hlive : sys.live = true) (hnothost : sid ≠ sys.s.hostSocketId)
    (hmem : sys.s.players.any (fun e => e.1 == sid) = true)
    (hr : sys.s.round = some r) (hq : currentQuestion sys.s = some q) :
    (disconnectEv sys sid).1.s.players =
      sys.s.players.filter (fun e => e.1 != sid) ∧
    (sys.s.players.filter (fun e => e.1 != sid) ≠ [] →
      (disconnectEv sys sid).1.s.round = some r ∧
      (disconnectEv sys sid).2.countP (fun e => e.isReveal) = 0) ∧
    (sys.s.players.filter (fun e => e.1 != sid) = [] →
      (disconnectEv sys sid).1.s.round = none ∧
      (disconnectEv sys sid).2.countP (fun e => e.isReveal) = 1) := by
  have hhost : (sid == sys.s.hostSocketId) = false := by
    simpa using hnothost
  refine ⟨?_, ?_, ?_⟩
  · cases hfil : sys.s.players.filter (fun e => e.1 != sid) <;>
      simp [disconnectEv, hlive, hhost, hmem, hr, hq, hfil, endRound,
        currentQuestion] <;>
      split <;> simp_all [currentQuestion]
  · intro hne
    cases hfil : sys.s.players.filter (fun e => e.1 != sid) with
    | nil => exact absurd hfil hne
    | cons a t =>
      constructor <;>
        simp [disconnectEv, hlive, hhost, hmem, hr, hfil, Emit.isReveal]
  · intro hnil
    constructor <;>
      simp [disconnectEv, hlive, hhost, hmem, hr, hnil, endRound,
        currentQuestion_update, hq, Emit.isReveal]

/-- Witness for `disconnect_player_behavior` at the concrete mid-round
state (player A remains, so the non-empty branch applies). -/
theorem disconnect_player_behavior_w :
    (disconnectEv sysMidRound "B").1.s.players =
      sysMidRound.s.players.filter (fun e => e.1 != "B") ∧
    (sysMidRound.s.players.filter (fun e => e.1 != "B") ≠ [] →
      (disconnectEv sysMidRound "B").1.s.round =
        some (Round.mk 1000 21000 1 ["B"]) ∧
      (disconnectEv sysMidRound "B").2.countP (fun e => e.isReveal) = 0) ∧
    (sysMidRound.s.players.filter (fun e => e.1 != "B") = [] →
      (disconnectEv sysMidRound "B").1.s.round = none ∧
      (disconnectEv sysMidRound "B").2.countP (fun e => e.isReveal) = 1) :=
  disconnect_player_behavior sysMidRound "B" ⟨1000, 21000, 1, ["B"]⟩ qEx
    rfl (by decide) rfl rfl rfl

/-- C5 fails on the code: after the host disconnects mid-round the
session is deleted (`live = false`) but the round's timer handle 1 is
still pending; when it fires, `endRound` runs against the deleted
session's state and emits a reveal broadcast (and a host `canAdvance`),
so deletion does not cancel the timer. -/
theorem deleted_session_timer_still_fires :
    sysHostGone.live = false ∧
    sysHostGone.s.round.isSome = true ∧
    sysHostGone.pending = [1] ∧
    (step sysHostGone (.timerFire 1)).2.countP (fun e => e.isReveal) = 1 ∧
    (step sysHostGone (.timerFire 1)).2 ≠ [] :=
  ⟨rfl, rfl, rfl, rfl, by decide⟩

theorem lookup_replace (sid : String) (p : Player) :
    ∀ ps : List (String × Player),
    (ps.map (fun e => if e.1 == sid then (sid, p) else e)).lookup sid =
      if ps.any (fun e => e.1 == sid) then some p else none
  | [] => by simp
  | e :: t => by
    by_cases he : e.1 = sid
    · have hany : (e.1 == sid) = true := by simpa using he
      have hhead : (if e.1 == sid then (sid, p) else e) = (sid, p) := by
        simp [he]
      rw [List.map_cons, hhead]
      simp [List.lookup, List.any_cons, hany]
    · have hb : (e.1 == sid) = false := by simpa using he
      have hb2 : (sid == e.1) = false := by
        simpa using fun h => he h.symm
      have hhead : (if e.1 == sid then (sid, p) else e) = e := by
        simp [he]
      rw [List.map_cons, hhead, List.any_cons, hb]
      simp only [List.lookup, hb2, Bool.false_or]
      exact lookup_replace sid p t

theorem lookup_append_fresh (sid : String) (p : Player) :
    ∀ ps : List (String × Player),
    ps.any (fun e => e.1 == sid) = false →
    (ps ++ [(sid, p)]).lookup sid = some p
  | [] => by simp [List.lookup]
  | e :: t => by
    intro h
    simp only [List.any_cons, Bool.or_eq_false_iff] at h
    have hb2 : (sid == e.1) = false := by
      have := h.1
      simp only [beq_eq_false_iff_ne] at this ⊢
      exact fun hh => this hh.symm
    simp [List.lookup, hb2, lookup_append_fresh sid p t h.2]

theorem lookup_mapSet (ps : List (String × Player)) (sid : String) (p : Player) :
    (mapSet ps sid p).lookup sid = some p := by
  unfold mapSet
  by_cases h : ps.any (fun e => e.1 == sid) = true
  · rw [if_pos h, lookup_replace sid p ps, if_pos h]
  · have h2 : ps.any (fun e => e.1 == sid) = false := by
      revert h; cases ps.any (fun e => e.1 == sid) <;> simp
    rw [if_neg h]
    exact lookup_append_fresh sid p ps h2

theorem scorePlayer_selectedOptionId (q : Question) (e : Nat) (p : Player) :
    (scorePlayer q e p).selectedOptionId = p.selectedOptionId := rfl

theorem scorePlayer_answeredAtMs (q : Question) (e : Nat) (p : Player) :
    (scorePlayer q e p).answeredAtMs = p.answeredAtMs := rfl

theorem lookup_map_value (f : Player → Player) (k : String) :
    ∀ ps : List (String × Player),
    (ps.map (fun e => (e.1, f e.2))).lookup k = (ps.lookup k).map f
  | [] => rfl
  | e :: t => by
    by_cases h : k == e.1
    · simp [List.lookup, h]
    · have hb : (k == e.1) = false := by revert h; cases k == e.1 <;> simp
      simp [List.lookup, hb, lookup_map_value f k t]

/-- C10: an answer submission is ignored (state unchanged, nothing
emitted) iff the session is gone, no round is active, the sender is not a
registered player, the submitted question id differs from the current
question's, or the sender already answered.  Otherwise the raw option id
is stored without any validation (the theorem is universal in `oid`), the
player is marked answered and removed from the awaiting set, a locked
acknowledgment is sent first, and at reveal the answer counts as correct
exactly when the raw string is a member of `correctOptionIds`. -/
theorem player_answer_spec (sys : Sys) (sid qid oid : String) (now : Nat)
    (r : Round) (p : Player) (q : Question) :
    (playerAnswerEv sys sid qid oid now = (sys, []) ↔ answerIgnored sys sid qid) ∧
    (sys.live = true → sys.s.round = some r →
     sys.s.players.lookup sid = some p → currentQuestion sys.s = some q →
     q.id = qid → p.selectedOptionId = none → r.awaiting.Nodup →
      (playerAnswerEv sys sid qid oid now).2.head? = some (Emit.locked sid oid) ∧
      ((playerAnswerEv sys sid qid oid now).1.s.players.lookup sid).map
          (fun p2 => p2.selectedOptionId) = some (some oid) ∧
      ((playerAnswerEv sys sid qid oid now).1.s.players.lookup sid).map
          (fun p2 => p2.answeredAtMs) = some (some now) ∧
      (playerAnswerEv sys sid qid oid now).1.s.round.elim True
        (fun r2 => sid ∉ r2.awaiting) ∧
      answerCorrect q
          { p with selectedOptionId := some oid, answeredAtMs := some now } =
        q.correctOptionIds.contains oid) := by
  constructor
  · constructor
    · intro hres
      by_contra hig
      unfold answerIgnored at hig
      push_neg at hig
      obtain ⟨h1, h2, h3, h4, h5⟩ := hig
      have hlive : sys.live = true := by
        revert h1; cases sys.live <;> simp
      obtain ⟨r0, hr0⟩ : ∃ r0, sys.s.round = some r0 := by
        revert h2; cases sys.s.round <;> simp
      obtain ⟨p0, hp0⟩ : ∃ p0, sys.s.players.lookup sid = some p0 := by
        revert h3; cases sys.s.players.lookup sid <;> simp
      obtain ⟨q0, hq0, hq0id⟩ :
          ∃ q0, currentQuestion sys.s = some q0 ∧ q0.id = qid := by
        cases hcq0 : currentQuestion sys.s with
        | none => rw [hcq0] at h4; simp at h4
        | some q0 =>
          rw [hcq0] at h4
          simp only [Option.map_some', Option.some.injEq] at h4
          exact ⟨q0, rfl, h4⟩
      have hsel0 : p0.selectedOptionId = none := by
        rw [hp0] at h5
        cases hs : p0.selectedOptionId
        · rfl
        · exact absurd (by simp [hs]) h5
      have hqidb : (q0.id != qid) = false := by simp [hq0id]
      have hselb : p0.selectedOptionId.isSome = false := by simp [hsel0]
      simp [playerAnswerEv, hlive, hr0, hp0, hq0, hqidb, hselb] at hres
    · intro hig
      rcases hig with h | h | h | h | h
      · simp [playerAnswerEv, h]
      · cases hl : sys.live <;> simp [playerAnswerEv, hl, h]
      · cases hl : sys.live
        · simp [playerAnswerEv, hl]
        · cases hro : sys.s.round
          · simp [playerAnswerEv, hl, hro]
          · simp [playerAnswerEv, hl, hro, h]
      · cases hl : sys.live
        · simp [playerAnswerEv, hl]
        · cases hro : sys.s.round
          · simp [playerAnswerEv, hl, hro]
          · cases hlk : sys.s.players.lookup sid
            · simp [playerAnswerEv, hl, hro, hlk]
            · cases hcq0 : currentQuestion sys.s with
              | none => simp [playerAnswerEv, hl, hro, hlk, hcq0]
              | some q0 =>
                rw [hcq0] at h
                simp only [Option.map_some', ne_eq, Option.some.injEq] at h
                have hb : (q0.id != qid) = true := by simpa using h
                simp [playerAnswerEv, hl, hro, hlk, hcq0, hb]
      · cases hl : sys.live
        · simp [playerAnswerEv, hl]
        · cases hro : sys.s.round
          · simp [playerAnswerEv, hl, hro]
          · cases hlk : sys.s.players.lookup sid with
            | none => simp [playerAnswerEv, hl, hro, hlk]
            | some p0 =>
              rw [hlk] at h
              simp only [Option.map_some', Option.some.injEq] at h
              cases hcq0 : currentQuestion sys.s with
              | none => simp [playerAnswerEv, hl, hro, hlk, hcq0]
              | some q0 =>
                by_cases hqq : (q0.id != qid) = true
                · simp [playerAnswerEv, hl, hro, hlk, hcq0, hqq]
                · have hqq2 : (q0.id != qid) = false := by
                    revert hqq; cases q0.id != qid <;> simp
                  simp [playerAnswerEv, hl, hro, hlk, hcq0, hqq2, h]
  · intro hlive hr hp hcq hqid hsel hnodup
    have hqidb : (q.id != qid) = false := by simp [hqid]
    have hselb : p.selectedOptionId.isSome = false := by simp [hsel]
    have hstep : playerAnswerEv sys sid qid oid now =
        ((maybeEndEarly ⟨{ sys.s with
            players := mapSet sys.s.players sid
              { p with selectedOptionId := some oid, answeredAtMs := some now },
            round := some { r with awaiting := r.awaiting.erase sid } },
          sys.live, sys.pending, sys.nextT⟩).1,
         Emit.locked sid oid ::
           (maybeEndEarly ⟨{ sys.s with
              players := mapSet sys.s.players sid
                { p with selectedOptionId := some oid, answeredAtMs := some now },
              round := some { r with awaiting := r.awaiting.erase sid } },
            sys.live, sys.pending, sys.nextT⟩).2) := by
      simp [playerAnswerEv, hlive, hr, hp, hcq, hqidb, hselb]
    rw [hstep]
    cases hem : (r.awaiting.erase sid).isEmpty with
    | false =>
      refine ⟨rfl, ?_, ?_, ?_, ?_⟩
      · simp [maybeEndEarly, hem, lookup_mapSet]
      · simp [maybeEndEarly, hem, lookup_mapSet]
      · simp [maybeEndEarly, hem]
        exact List.Nodup.not_mem_erase hnodup
      · simp [answerCorrect]
    | true =>
      have hcq2 : currentQuestion { sys.s with
          players := mapSet sys.s.players sid
            { p with selectedOptionId := some oid, answeredAtMs := some now },
          round := some { r with awaiting := r.awaiting.erase sid } } = some q := by
        rw [currentQuestion_update]
        exact hcq
      refine ⟨rfl, ?_, ?_, ?_, ?_⟩
      · simp [maybeEndEarly, hem, endRound, hcq2, lookup_map_value,
          lookup_mapSet, scorePlayer_selectedOptionId]
      · simp [maybeEndEarly, hem, endRound, hcq2, lookup_map_value,
          lookup_mapSet, scorePlayer_answeredAtMs]
      · simp [maybeEndEarly, hem, endRound, hcq2]
      · simp [answerCorrect]

theorem SessionInv_transfer (a b : Sys) (h : SessionInv a)
    (hidx : b.s.currentIndex = a.s.currentIndex)
    (hst : b.s.started = a.s.started)
    (hl : b.live = true → a.live = true)
    (hq : b.s.questions = a.s.questions)
    (hr : b.s.round.isSome = true → a.s.round.isSome = true) :
    SessionInv b := by
  obtain ⟨h1, h2, h3, h4⟩ := h
  refine ⟨?_, ?_, ?_, ?_⟩
  · rw [hidx]; exact h1
  · intro hx
    rw [hidx] at hx
    have h2x := h2 hx
    refine ⟨by rw [hst]; exact h2x.1, ?_⟩
    cases hbr : b.s.round with
    | none => rfl
    | some rb =>
      have hbs : b.s.round.isSome = true := by simp [hbr]
      have has := hr hbs
      rw [h2x.2] at has
      simp at has
  · intro hx
    rw [hidx]
    exact h3 (hr hx)
  · intro hx
    rw [hidx, hq]
    exact h4 (hl hx)

theorem endRound_fields (sys : Sys) :
    (endRound sys).1.s.currentIndex = sys.s.currentIndex ∧
    (endRound sys).1.s.started = sys.s.started ∧
    ((endRound sys).1.live = true → sys.live = true) ∧
    (endRound sys).1.s.questions = sys.s.questions ∧
    ((endRound sys).1.s.round.isSome = true → sys.s.round.isSome = true) := by
  unfold endRound
  split
  · exact ⟨rfl, rfl, fun h => h, rfl, fun h => h⟩
  · split
    · exact ⟨rfl, rfl, fun h => h, rfl, fun h => h⟩
    · refine ⟨rfl, rfl, fun h => h, rfl, fun h => ?_⟩
      simp at h

theorem maybeEndEarly_fields (sys : Sys) :
    (maybeEndEarly sys).1.s.currentIndex = sys.s.currentIndex ∧
    (maybeEndEarly sys).1.s.started = sys.s.started ∧
    ((maybeEndEarly sys).1.live = true → sys.live = true) ∧
    (maybeEndEarly sys).1.s.questions = sys.s.questions ∧
    ((maybeEndEarly sys).1.s.round.isSome = true → sys.s.round.isSome = true) := by
  unfold maybeEndEarly
  split
  · exact ⟨rfl, rfl, fun h => h, rfl, fun h => h⟩
  · rename_i r heq
    split
    · have hf := endRound_fields ⟨sys.s, sys.live, sys.pending.erase r.timer, sys.nextT⟩
      exact ⟨hf.1, hf.2.1, hf.2.2.1, hf.2.2.2.1, fun hh => hf.2.2.2.2 hh⟩
    · exact ⟨rfl, rfl, fun h => h, rfl, fun h => h⟩

theorem playerJoinEv_fields (sys : Sys) (sid name : String) :
    (playerJoinEv sys sid name).1.s.currentIndex = sys.s.currentIndex ∧
    (playerJoinEv sys sid name).1.s.started = sys.s.started ∧
    ((playerJoinEv sys sid name).1.live = true → sys.live = true) ∧
    (playerJoinEv sys sid name).1.s.questions = sys.s.questions ∧
    ((playerJoinEv sys sid name).1.s.round.isSome = true →
      sys.s.round.isSome = true) := by
  unfold playerJoinEv
  split
  · exact ⟨rfl, rfl, fun h => h, rfl, fun h => h⟩
  · split
    · exact ⟨rfl, rfl, fun h => h, rfl, fun h => h⟩
    · exact ⟨rfl, rfl, fun h => h, rfl, fun h => h⟩

theorem playerAnswerEv_fields (sys : Sys) (sid qid oid : String) (now : Nat) :
    (playerAnswerEv sys sid qid oid now).1.s.currentIndex = sys.s.currentIndex ∧
    (playerAnswerEv sys sid qid oid now).1.s.started = sys.s.started ∧
    ((playerAnswerEv sys sid qid oid now).1.live = true → sys.live = true) ∧
    (playerAnswerEv sys sid qid oid now).1.s.questions = sys.s.questions ∧
    ((playerAnswerEv sys sid qid oid now).1.s.round.isSome = true →
      sys.s.round.isSome = true) := by
  unfold playerAnswerEv
  split
  · exact ⟨rfl, rfl, fun h => h, rfl, fun h => h⟩
  · split
    · exact ⟨rfl, rfl, fun h => h, rfl, fun h => h⟩
    · split
      · exact ⟨rfl, rfl, fun h => h, rfl, fun h => h⟩
      · split
        · exact ⟨rfl, rfl, fun h => h, rfl, fun h => h⟩
        · split
          · exact ⟨rfl, rfl, fun h => h, rfl, fun h => h⟩
          · split
            · exact ⟨rfl, rfl, fun h => h, rfl, fun h => h⟩
            · refine ⟨(maybeEndEarly_fields _).1, (maybeEndEarly_fields _).2.1,
                (maybeEndEarly_fields _).2.2.1, (maybeEndEarly_fields _).2.2.2.1,
                fun hh => ?_⟩
              have := (maybeEndEarly_fields _).2.2.2.2 hh
              simp_all

theorem disconnectEv_fields (sys : Sys) (sid : String) :
    (disconnectEv sys sid).1.s.currentIndex = sys.s.currentIndex ∧
    (disconnectEv sys sid).1.s.started = sys.s.started ∧
    ((disconnectEv sys sid).1.live = true → sys.live = true) ∧
    (disconnectEv sys sid).1.s.questions = sys.s.questions ∧
    ((disconnectEv sys sid).1.s.round.isSome = true →
      sys.s.round.isSome = true) := by
  unfold disconnectEv
  split
  · exact ⟨rfl, rfl, fun h => h, rfl, fun h => h⟩
  · split
    · exact ⟨rfl, rfl, fun h => by simp at h, rfl, fun h => h⟩
    · split
      · dsimp only
        split
        · split
          · refine ⟨(endRound_fields _).1, (endRound_fields _).2.1,
              (endRound_fields _).2.2.1, (endRound_fields _).2.2.2.1,
              fun hh => ?_⟩
            have := (endRound_fields _).2.2.2.2 hh
            simp_all
          · exact ⟨rfl, rfl, fun h => h, rfl, fun h => h⟩
        · exact ⟨rfl, rfl, fun h => h, rfl, fun h => h⟩
      · exact ⟨rfl, rfl, fun h => h, rfl, fun h => h⟩

theorem startQuestion_inv (sys : Sys) (now : Nat)
    (h : -1 ≤ sys.s.currentIndex) : SessionInv (startQuestion sys now).1 := by
  unfold startQuestion SessionInv
  by_cases hle : (sys.s.questions.length : Int) ≤ sys.s.currentIndex + 1
  · rw [if_pos hle]
    dsimp only
    refine ⟨by omega, fun hx => absurd hx (by omega), fun _ => by omega, ?_⟩
    intro hx
    simp at hx
  · rw [if_neg hle]
    cases hg : sys.s.questions.get? (sys.s.currentIndex + 1).toNat with
    | none =>
      dsimp only
      refine ⟨by omega, fun hx => absurd hx (by omega), fun _ => by omega,
        fun _ => by omega⟩
    | some q =>
      dsimp only
      refine ⟨by omega, fun hx => absurd hx (by omega), fun _ => by omega,
        fun _ => by omega⟩

theorem initSys_inv (host title : String) (qs : List Question) :
    SessionInv (initSys host title qs) := by
  refine ⟨by simp [initSys], fun _ => ⟨rfl, rfl⟩, ?_, ?_⟩
  · intro hx
    simp [initSys] at hx
  · intro _
    simp only [initSys]
    omega

theorem step_inv (sys : Sys) (e : Event) (h : SessionInv sys) :
    SessionInv (step sys e).1 := by
  obtain ⟨hge, hlobby, hround, hlen⟩ := h
  cases e with
  | startGame c now =>
    simp only [step]
    unfold startGameEv
    split
    · exact ⟨hge, hlobby, hround, hlen⟩
    · exact startQuestion_inv ⟨{ sys.s with started := true },
        sys.live, sys.pending, sys.nextT⟩ now hge
  | hostNext c now =>
    simp only [step]
    unfold hostNextEv
    split
    · exact ⟨hge, hlobby, hround, hlen⟩
    · exact startQuestion_inv sys now hge
  | playerJoin sid name =>
    have hf := playerJoinEv_fields sys sid name
    exact SessionInv_transfer sys _ ⟨hge, hlobby, hround, hlen⟩
      hf.1 hf.2.1 hf.2.2.1 hf.2.2.2.1 hf.2.2.2.2
  | playerAnswer sid qid oid now =>
    have hf := playerAnswerEv_fields sys sid qid oid now
    exact SessionInv_transfer sys _ ⟨hge, hlobby, hround, hlen⟩
      hf.1 hf.2.1 hf.2.2.1 hf.2.2.2.1 hf.2.2.2.2
  | timerFire tid =>
    simp only [step]
    unfold timerFireEv
    split
    · have hf := endRound_fields ⟨sys.s, sys.live, sys.pending.erase tid, sys.nextT⟩
      exact SessionInv_transfer sys _ ⟨hge, hlobby, hround, hlen⟩
        hf.1 hf.2.1 hf.2.2.1 hf.2.2.2.1 hf.2.2.2.2
    · exact ⟨hge, hlobby, hround, hlen⟩
  | disconnect sid =>
    have hf := disconnectEv_fields sys sid
    exact SessionInv_transfer sys _ ⟨hge, hlobby, hround, hlen⟩
      hf.1 hf.2.1 hf.2.2.1 hf.2.2.2.1 hf.2.2.2.2

theorem reachable_inv (host title : String) (qs : List Question) (sys : Sys)
    (h : Reachable host title qs sys) : SessionInv sys := by
  induction h with
  | init => exact initSys_inv host title qs
  | next sys2 e _ ih => exact step_inv sys2 e ih

/-- C3 fails as stated: `host:next` on a never-started session yields a
reachable state with an active Round while `started = false` and
`currentIndex = 0` (so neither `started=false ⇒ round=null` nor
`round ⇒ started` holds), and the ordinary reveal state after the first
round has `started = true`, `round = null`, `currentIndex = 0 ≠ -1`,
refuting the remaining pairwise equivalences. -/
theorem session_equivalences_fail :
    Reachable "H" "T" [qEx] sysNextUnstarted ∧
    sysNextUnstarted.s.started = false ∧
    sysNextUnstarted.s.round.isSome = true ∧
    sysNextUnstarted.s.currentIndex = 0 ∧
    Reachable "H" "T" [qEx] sysAfterReveal ∧
    sysAfterReveal.s.started = true ∧
    sysAfterReveal.s.round = none ∧
    sysAfterReveal.s.currentIndex = 0 :=
  ⟨Reachable.next _ _ Reachable.init, rfl, rfl, rfl,
   Reachable.next _ _ (Reachable.next _ _ Reachable.init), rfl, rfl, rfl⟩

/-- C3 amended: in every reachable session state, `currentIndex = -1`
implies the lobby state (`started = false` and no Round); and while the
session is still registered, an active Round implies
`0 ≤ currentIndex < length questions`.  The three conditions are not
pairwise equivalent (see the counterexample). -/
theorem session_invariant (host title : String) (qs : List Question)
    (sys : Sys) (h : Reachable host title qs sys) :
    (sys.s.currentIndex = -1 → sys.s.started = false ∧ sys.s.round = none) ∧
    (sys.live = true → sys.s.round.isSome = true →
      0 ≤ sys.s.currentIndex ∧
      sys.s.currentIndex < (sys.s.questions.length : Int)) := by
  obtain ⟨h1, h2, h3, h4⟩ := reachable_inv host title qs sys h
  exact ⟨h2, fun hl hrd => ⟨h3 hrd, h4 hl⟩⟩

/-- Witness for `session_invariant` at the reachable mid-round state of
the two-question session. -/
theorem session_invariant_w :
    (sysTwoQ.s.currentIndex = -1 →
      sysTwoQ.s.started = false ∧ sysTwoQ.s.round = none) ∧
    (sysTwoQ.live = true → sysTwoQ.s.round.isSome = true →
      0 ≤ sysTwoQ.s.currentIndex ∧
      sysTwoQ.s.currentIndex < (sysTwoQ.s.questions.length : Int)) :=
  session_invariant "H" "T" [qEx, qEx2] sysTwoQ
    (Reachable.next _ _ Reachable.init)
